import Mathlib

/-!
Verification of the dynajs source-to-source instrumenting transformer
(src/src/instrument.ts) and its runtime hook table (src/src/analysis.ts)
against the natural-language specification.

The embedding translates the TypeScript sources into executable Lean
definitions.  Strings are Lean strings; the mutable module-level id
counter and id-to-location table become an explicit state record; the
runtime hooks become functions that return the list of analysis events
they fire together with their results; exceptions thrown by the
instrumented scaffolds become an explicit outcome value.
-/

namespace DynaJS

/- -------------------------------------------------------------------
   Constants.  The repository imports these from ./constants, a file
   that is not part of src/; their values are modelled from the spec.
   ------------------------------------------------------------------- -/

/-- Modelled from the spec: the no-instrument marker string from
constants.ts (the file is not in src/); section 2 of the spec calls it
the marker string "NO_INSTRUMENT". -/
def NO_INSTRUMENT : String := "NO_INSTRUMENT"

/-- Modelled from the spec: the runtime-global name from constants.ts
(the file is not in src/); analysis.ts assigns the hook table to the
global variable D$ (globalThis.D$ = BASE). -/
def DYNAJS_VAR : String := "D$"

/- -------------------------------------------------------------------
   Substring occurrence, modelling String.prototype.indexOf != -1
   (instrument.ts line 64: code.indexOf(NO_INSTRUMENT) == -1).
   ------------------------------------------------------------------- -/

/-- Whether the character list `needle` is a prefix of `hay`. -/
def listIsPrefixOf : List Char → List Char → Bool
  | [], _ => true
  | _ :: _, [] => false
  | a :: as, b :: bs => a == b && listIsPrefixOf as bs

/-- Whether the character list `needle` occurs in `hay` at some position. -/
def listOccurs (needle : List Char) : List Char → Bool
  | [] => listIsPrefixOf needle []
  | c :: cs => listIsPrefixOf needle (c :: cs) || listOccurs needle cs

/-- Substring occurrence on strings: `strOccurs n h = true` iff
`h.indexOf(n) != -1` in the source language. -/
def strOccurs (needle hay : String) : Bool :=
  listOccurs needle.data hay.data

theorem listIsPrefixOf_append_self (as bs : List Char) :
    listIsPrefixOf as (as ++ bs) = true := by
  induction as with
  | nil => rfl
  | cons a as ih => simp [listIsPrefixOf, ih]

theorem listOccurs_append_self (as bs : List Char) :
    listOccurs as (as ++ bs) = true := by
  cases as with
  | nil =>
    cases bs with
    | nil => rfl
    | cons b bs => simp [listOccurs, listIsPrefixOf]
  | cons a as =>
    have h := listIsPrefixOf_append_self (a :: as) bs
    simp [listOccurs]
    exact Or.inl h

/-- A string occurs in any string that starts with it. -/
theorem strOccurs_append_self (n rest : String) :
    strOccurs n (n ++ rest) = true := by
  simpa [strOccurs, String.data_append] using
    listOccurs_append_self n.data rest.data

/- -------------------------------------------------------------------
   The driver: instrument (instrument.ts lines 56-75).

   The AST walk is abstracted: `walkOut` stands for the string that
   `state.walk(ast)` accumulates into `state.output`, and
   `serializedIds` stands for `JSON.stringify(idToLoc)`.  The parse
   step is deferred to the host parser and not modelled.  The branch
   structure and the string concatenations are translated literally
   from the source.
   ------------------------------------------------------------------- -/

/-- The preamble `${NO_INSTRUMENT}\n${DYNAJS_VAR}.ids = ${...};\n`
prepended to every produced output (instrument.ts lines 69-71). -/
def preamble (serializedIds : String) : String :=
  NO_INSTRUMENT ++ "\n" ++ DYNAJS_VAR ++ ".ids = " ++ serializedIds ++ ";" ++ "\n"

/-- instrument.ts lines 56-75: start with `output = code`; if the
marker does not occur in the code, walk the AST and replace the output
with the instrumented-by comment followed by the walk output; finally
prepend the preamble unconditionally. -/
def instrument (walkOut serializedIds code : String) : String :=
  let output := code
  let output :=
    if strOccurs NO_INSTRUMENT code = false
      then "// INSTRUMENTED BY DYNAJS" ++ "\n" ++ walkOut
      else output
  preamble serializedIds ++ output

/-- C1: for every source string, instrument checks for the
no-instrument marker: if the marker occurs anywhere in the code, the
walk is skipped and the output is exactly the preamble (the marker
line followed by the serialized id-to-location table assignment)
followed by the source text unchanged; otherwise the output is the
preamble followed by the INSTRUMENTED BY DYNAJS comment line and the
instrumented body produced by the walk. -/
theorem instrument_marker_check (walkOut serializedIds code : String) :
    (strOccurs NO_INSTRUMENT code = true →
      instrument walkOut serializedIds code = preamble serializedIds ++ code) ∧
    (strOccurs NO_INSTRUMENT code = false →
      instrument walkOut serializedIds code =
        preamble serializedIds ++ "// INSTRUMENTED BY DYNAJS" ++ "\n" ++ walkOut) := by
  constructor
  · intro h
    simp [instrument, h]
  · intro h
    simp [instrument, h, String.append_assoc]

/-- Witness for C1 at concrete inputs: a source containing the marker
is passed through unchanged under the preamble, and a marker-free
source gets the instrumented body. -/
theorem instrument_marker_check_witness :
    instrument "WALK" "TBL" ("x; // NO_INSTRUMENT here") =
      preamble "TBL" ++ "x; // NO_INSTRUMENT here" ∧
    instrument "WALK" "TBL" "var x = 1;" =
      preamble "TBL" ++ "// INSTRUMENTED BY DYNAJS" ++ "\n" ++ "WALK" := by
  constructor
  · exact (instrument_marker_check "WALK" "TBL" "x; // NO_INSTRUMENT here").1 (by decide)
  · exact (instrument_marker_check "WALK" "TBL" "var x = 1;").2 (by decide)

/-- Counterexample for C7: running the transformer twice does NOT
equal running it once: the second run prepends a second preamble, so
the outputs differ at a concrete input. -/
theorem instrument_twice_counterexample :
    instrument "W2" "T2" (instrument "W1" "T1" "x;") ≠
      instrument "W1" "T1" "x;" := by
  decide

/-- C7 amended: the second run's marker check short-circuits the walk
(the body of the first output is kept verbatim), but the preamble is
prepended again unconditionally, so running the transformer twice
yields the once-instrumented output with one more preamble in front,
not the same string. -/
theorem instrument_twice (w1 s1 w2 s2 code : String) :
    instrument w2 s2 (instrument w1 s1 code) =
      preamble s2 ++ instrument w1 s1 code := by
  have hocc : strOccurs NO_INSTRUMENT (instrument w1 s1 code) = true := by
    have : instrument w1 s1 code =
        NO_INSTRUMENT ++ ("\n" ++ DYNAJS_VAR ++ ".ids = " ++ s1 ++ ";" ++ "\n" ++
          (if strOccurs NO_INSTRUMENT code = false
            then "// INSTRUMENTED BY DYNAJS" ++ "\n" ++ w1 else code)) := by
      simp [instrument, preamble, String.append_assoc]
    rw [this]
    exact strOccurs_append_self _ _
  generalize hy : instrument w1 s1 code = y at hocc ⊢
  simp [instrument, hocc]

/- -------------------------------------------------------------------
   Unique id generator (instrument.ts lines 444-459).

   `let idToLoc = {}` and `let numId = 0` are module-level mutable
   variables; we carry them in an explicit state record.  The object
   `idToLoc` is modelled as an association list with the most recent
   binding in front (ids are never assigned twice, so lookup agrees
   with the object semantics).
   ------------------------------------------------------------------- -/

/-- A source location as delivered by the parser: 1-based lines,
0-based columns (acorn `node.loc`). -/
structure Loc where
  startLine : Nat
  startCol : Nat
  endLine : Nat
  endCol : Nat
deriving DecidableEq, Repr

/-- The module-level mutable state of the id generator: the counter
`numId` and the table `idToLoc`. -/
structure IdState where
  numId : Nat
  idToLoc : List (Nat × (Nat × Nat × Nat × Nat))
deriving DecidableEq, Repr

/-- instrument.ts line 446: `const ID_INC_STEP = 1`. -/
def ID_INC_STEP : Nat := 1

/-- The table entry recorded for a node with a `loc`: start/end lines
verbatim, columns shifted by +1 (instrument.ts lines 451-456). -/
def locEntry (l : Loc) : Nat × Nat × Nat × Nat :=
  (l.startLine, l.startCol + 1, l.endLine, l.endCol + 1)

/-- instrument.ts lines 447-459: return the current counter, bump it
by `ID_INC_STEP`, and if the node has a `loc`, record the entry for
the returned id. -/
def newId (node : Option Loc) (s : IdState) : Nat × IdState :=
  let id := s.numId
  let numId' := s.numId + ID_INC_STEP
  match node with
  | some l => (id, ⟨numId', (id, locEntry l) :: s.idToLoc⟩)
  | none => (id, ⟨numId', s.idToLoc⟩)

/-- A sequence of `newId` calls during one transformation, returning
the ids in call order together with the final state. -/
def runNewIds : List (Option Loc) → IdState → List Nat × IdState
  | [], s => ([], s)
  | n :: ns, s =>
    let p := newId n s
    let q := runNewIds ns p.2
    (p.1 :: q.1, q.2)

/-- Invariant of the generator state: every key in the table is below
the counter.  It holds for the initial state (counter 0, empty table)
and is preserved by every call. -/
def keysBelow (s : IdState) : Prop :=
  ∀ p ∈ s.idToLoc, p.1 < s.numId

theorem newId_fst (node : Option Loc) (s : IdState) :
    (newId node s).1 = s.numId := by
  cases node <;> rfl

theorem newId_numId (node : Option Loc) (s : IdState) :
    (newId node s).2.numId = s.numId + 1 := by
  cases node <;> rfl

theorem keysBelow_newId (node : Option Loc) (s : IdState)
    (hs : keysBelow s) : keysBelow (newId node s).2 := by
  cases node with
  | none =>
    intro p hp
    simp only [newId] at hp ⊢
    exact Nat.lt_succ_of_lt (hs p hp)
  | some l =>
    intro p hp
    simp only [newId] at hp ⊢
    rcases List.mem_cons.mp hp with hp | hp
    · subst hp
      simp [ID_INC_STEP]
    · exact Nat.lt_succ_of_lt (hs p hp)

theorem runNewIds_numId (ns : List (Option Loc)) (s : IdState) :
    (runNewIds ns s).2.numId = s.numId + ns.length := by
  induction ns generalizing s with
  | nil => simp [runNewIds]
  | cons n ns ih =>
    simp [runNewIds, ih, newId_numId]
    omega

theorem runNewIds_fst (ns : List (Option Loc)) (s : IdState) :
    (runNewIds ns s).1 = List.range' s.numId ns.length := by
  induction ns generalizing s with
  | nil => rfl
  | cons n ns ih =>
    simp [runNewIds, newId_fst, ih, newId_numId, List.range'_succ]

/-- Lookup of an id strictly below the counter is untouched by any
further sequence of calls: every entry added later has a larger key. -/
theorem lookup_runNewIds_below (ns : List (Option Loc)) (s : IdState)
    (id : Nat) (h : id < s.numId) :
    List.lookup id (runNewIds ns s).2.idToLoc = List.lookup id s.idToLoc := by
  induction ns generalizing s with
  | nil => rfl
  | cons n ns ih =>
    have h1 : id < (newId n s).2.numId := by
      rw [newId_numId]; exact Nat.lt_succ_of_lt h
    have h2 := ih (newId n s).2 h1
    cases n with
    | none => simpa [runNewIds, newId] using h2
    | some l =>
      have hne : (id == s.numId) = false := by
        simp [Nat.ne_of_lt h]
      simp only [runNewIds]
      rw [h2]
      simp [newId, List.lookup, hne]

theorem lookup_keysBelow_none (l : List (Nat × (Nat × Nat × Nat × Nat)))
    (m : Nat) (h : ∀ p ∈ l, p.1 < m) : List.lookup m l = none := by
  induction l with
  | nil => rfl
  | cons p l ih =>
    obtain ⟨k, v⟩ := p
    have hk : k < m := h (k, v) (List.mem_cons_self _ l)
    have hne : (m == k) = false := by
      simp [Ne.symm (Nat.ne_of_lt hk)]
    have ht := ih (fun q hq => h q (List.mem_cons_of_mem _ hq))
    simp [List.lookup, hne, ht]

/-- C2: during one transformation, the ids returned by successive
`newId` calls are exactly `numId, numId+1, ...` in visit order (hence
strictly increasing, never recurring), and the final table has an
entry for the i-th returned id exactly when the i-th node has a `loc`,
in which case the entry is `[startLine, startCol+1, endLine,
endCol+1]` of that node; ids of nodes without `loc` have no entry. -/
theorem newId_increasing_and_table (nodes : List (Option Loc)) (s : IdState)
    (hs : keysBelow s) :
    ((runNewIds nodes s).1 = List.range' s.numId nodes.length ∧
      List.Pairwise (· < ·) (runNewIds nodes s).1) ∧
    ∀ i, (h : i < nodes.length) →
      List.lookup (s.numId + i) (runNewIds nodes s).2.idToLoc =
        (nodes.get ⟨i, h⟩).map locEntry := by
  refine ⟨⟨runNewIds_fst nodes s, ?_⟩, ?_⟩
  · rw [runNewIds_fst]
    exact List.pairwise_lt_range' s.numId nodes.length
  · induction nodes generalizing s with
    | nil => intro i h; exact absurd h (Nat.not_lt_zero i)
    | cons n ns ih =>
      intro i h
      match i with
      | 0 =>
        have hbelow : s.numId < (newId n s).2.numId := by
          rw [newId_numId]; exact Nat.lt_succ_self _
        have hpres := lookup_runNewIds_below ns (newId n s).2 s.numId hbelow
        cases n with
        | some l =>
          simp only [runNewIds, Nat.add_zero]
          rw [hpres]
          simp [newId, List.lookup]
        | none =>
          simp only [runNewIds, Nat.add_zero]
          rw [hpres]
          simp only [newId]
          simpa using lookup_keysBelow_none s.idToLoc s.numId hs
      | Nat.succ j =>
        have hj : j < ns.length := Nat.lt_of_succ_lt_succ h
        have hkeys := keysBelow_newId n s hs
        have := ih (newId n s).2 hkeys j hj
        rw [newId_numId] at this
        simp only [runNewIds]
        have harith : s.numId + (j + 1) = s.numId + 1 + j := by omega
        rw [harith]
        simpa using this

/-- Witness for C2: two calls from the fresh state, the first on a
node at line 1 columns 0-5, the second on a synthesized node without
`loc`; ids are 0 then 1, the table maps 0 to the shifted location and
has no entry for 1. -/
theorem newId_increasing_and_table_witness :
    (runNewIds [some ⟨1, 0, 1, 5⟩, none] ⟨0, []⟩).1 = [0, 1] ∧
    List.lookup 0 (runNewIds [some ⟨1, 0, 1, 5⟩, none] ⟨0, []⟩).2.idToLoc =
      some (1, 1, 1, 6) ∧
    List.lookup 1 (runNewIds [some ⟨1, 0, 1, 5⟩, none] ⟨0, []⟩).2.idToLoc =
      none := by
  have h := newId_increasing_and_table [some ⟨1, 0, 1, 5⟩, none] ⟨0, []⟩
    (by intro p hp; simp at hp)
  refine ⟨by simpa using h.1.1, ?_, ?_⟩
  · simpa using h.2 0 (by decide)
  · simpa using h.2 1 (by decide)

/- -------------------------------------------------------------------
   Driver boundary (C8).  instrumentFile (instrument.ts lines 38-53)
   reads the file, calls instrument, and writes the output.  Neither
   instrumentFile nor instrument nor anything in index.ts assigns to
   numId or idToLoc: the only mutation of the module-level state is
   newId during the walk.  The id-allocation effect of one
   instrumentFile call is therefore exactly runNewIds over the walked
   sites.
   ------------------------------------------------------------------- -/

/-- The effect of one `instrumentFile` call on the module-level id
state: the walk allocates one id per instrumented site (no reset
statement exists anywhere in instrument.ts or index.ts). -/
def instrumentFileIds (sites : List (Option Loc)) (s : IdState) : IdState :=
  (runNewIds sites s).2

/-- Counterexample for C8: after a first `instrumentFile` call that
allocates a single id for a located node, the state the second call
starts from has counter 1 and a nonempty table, not counter 0 and an
empty table as the claim states. -/
theorem instrumentFile_reset_counterexample :
    ¬((instrumentFileIds [some ⟨1, 0, 1, 2⟩] ⟨0, []⟩).numId = 0 ∧
      (instrumentFileIds [some ⟨1, 0, 1, 2⟩] ⟨0, []⟩).idToLoc = []) := by
  decide

/-- C8 amended: the process-wide id counter and id-to-location table
are the only mutable state shared between transformations of different
files, but they are NOT reset at the driver boundary: the second of
two consecutive `instrumentFile` calls starts with the counter equal
to the first call's final counter (initial counter plus the number of
sites walked) and with the first call's table entries still present
and unchanged. -/
theorem instrumentFile_state_persists (sites1 sites2 : List (Option Loc))
    (s : IdState) :
    (instrumentFileIds sites1 s).numId = s.numId + sites1.length ∧
    ∀ id, id < (instrumentFileIds sites1 s).numId →
      List.lookup id (instrumentFileIds sites2 (instrumentFileIds sites1 s)).idToLoc =
        List.lookup id (instrumentFileIds sites1 s).idToLoc := by
  refine ⟨runNewIds_numId sites1 s, ?_⟩
  intro id hid
  exact lookup_runNewIds_below sites2 (instrumentFileIds sites1 s) id hid

/-- Witness for C8 amended: with one located site in the first file
and one in the second, the second call starts at counter 1 and the
entry for id 0 survives the second transformation. -/
theorem instrumentFile_state_persists_witness :
    (instrumentFileIds [some ⟨1, 0, 1, 2⟩] ⟨0, []⟩).numId = 0 + 1 ∧
    List.lookup 0 (instrumentFileIds [some ⟨2, 0, 2, 2⟩]
        (instrumentFileIds [some ⟨1, 0, 1, 2⟩] ⟨0, []⟩)).idToLoc =
      List.lookup 0 (instrumentFileIds [some ⟨1, 0, 1, 2⟩] ⟨0, []⟩).idToLoc := by
  have h := instrumentFile_state_persists [some ⟨1, 0, 1, 2⟩]
    [some ⟨2, 0, 2, 2⟩] ⟨0, []⟩
  exact ⟨by simpa using h.1, h.2 0 (by decide)⟩

/- -------------------------------------------------------------------
   Variable kinds and the declare hook (C3).

   The enum itself lives in the repository's utils module, which is
   not in src/; its cases are modelled from the spec (section 3:
   Var, Let, Const, Func, Param, CatchParam, Arguments) and match the
   cases used throughout instrument.ts.
   ------------------------------------------------------------------- -/

/-- Modelled from the spec: the VarKind enumeration from utils.ts (the
declaration is not in src/; spec section 3 lists the kinds). -/
inductive VarKind where
  | Var
  | Let
  | Const
  | Func
  | Param
  | CatchParam
  | Arguments
deriving DecidableEq, Repr

/-- instrument.ts line 347: `kind === VarKind.Const || kind ===
VarKind.Let`. -/
def isTDZ (kind : VarKind) : Bool :=
  kind == VarKind.Const || kind == VarKind.Let

/-- One emitted `D$.D(...)` call: the allocated id, the name and kind
arguments, and the value argument when present.  The value argument in
the emitted text is the identifier `name` itself, evaluated by the
host to the current binding of that name; `some name` records that the
identifier was emitted. -/
structure DeclareCall where
  id : Nat
  name : String
  kind : VarKind
  value : Option String
deriving DecidableEq, Repr

/-- instrument.ts lines 342-354: for each name in the current scope
frame's vars (in insertion order), emit a declare hook call; the TDZ
kinds get no value argument, all others get the identifier itself as
the value argument.  Each emission allocates a fresh id for the
region node. -/
def logDeclare (node : Option Loc) (vars : List (String × VarKind))
    (s : IdState) : List DeclareCall × IdState :=
  match vars with
  | [] => ([], s)
  | (name, kind) :: rest =>
    let p := newId node s
    let call :=
      if isTDZ kind
        then DeclareCall.mk p.1 name kind none
        else DeclareCall.mk p.1 name kind (some name)
    let q := logDeclare node rest p.2
    (call :: q.1, q.2)

/-- analysis.ts lines 286-289: the D hook computes `init :=
arguments.length >= 4`, true exactly when a value argument was
passed. -/
def D_init (value : Option String) : Bool :=
  value.isSome

/-- C3: among the declare hook calls emitted by logDeclare at scope
entry there is one call per scope name in order, the value argument is
omitted exactly for names of kind Let or Const (the TDZ policy), every
other kind (Var, Func, Param, CatchParam, Arguments) is declared with
the current binding of its own name as the value argument, and the D
hook consequently sees init = false exactly for the TDZ kinds. -/
theorem logDeclare_tdz (node : Option Loc) (vars : List (String × VarKind))
    (s : IdState) :
    ((logDeclare node vars s).1.map (fun c => (c.name, c.kind)) = vars) ∧
    ∀ c ∈ (logDeclare node vars s).1,
      (c.value = none ↔ (c.kind = VarKind.Let ∨ c.kind = VarKind.Const)) ∧
      (¬(c.kind = VarKind.Let ∨ c.kind = VarKind.Const) →
        c.value = some c.name) ∧
      (D_init c.value = false ↔ (c.kind = VarKind.Let ∨ c.kind = VarKind.Const)) := by
  induction vars generalizing s with
  | nil => exact ⟨rfl, by intro c hc; simp [logDeclare] at hc⟩
  | cons nk rest ih =>
    obtain ⟨name, kind⟩ := nk
    obtain ⟨ih1, ih2⟩ := ih (newId node s).2
    constructor
    · by_cases h : isTDZ kind = true <;>
        simp [logDeclare, h, ih1]
    · intro c hc
      simp only [logDeclare] at hc
      rcases List.mem_cons.mp hc with hc | hc
      · subst hc
        by_cases h : isTDZ kind = true
        · have hk : kind = VarKind.Let ∨ kind = VarKind.Const := by
            cases kind <;> simp [isTDZ] at h ⊢
          simp [h, hk, D_init]
        · have hk : ¬(kind = VarKind.Let ∨ kind = VarKind.Const) := by
            cases kind <;> simp [isTDZ] at h ⊢
          simp [h, hk, D_init]
      · exact ih2 c hc

/-- Witness for C3 at a concrete frame holding one name of each kind:
the emitted calls drop the value argument exactly at the Let and Const
entries. -/
theorem logDeclare_tdz_witness :
    ((logDeclare none [("a", VarKind.Var), ("b", VarKind.Let),
        ("c", VarKind.Const), ("d", VarKind.Func), ("e", VarKind.Param),
        ("f", VarKind.CatchParam), ("g", VarKind.Arguments)]
        ⟨0, []⟩).1.map (fun c => c.value)) =
      [some "a", none, none, some "d", some "e", some "f", some "g"] := by
  have h := logDeclare_tdz none [("a", VarKind.Var), ("b", VarKind.Let),
    ("c", VarKind.Const), ("d", VarKind.Func), ("e", VarKind.Param),
    ("f", VarKind.CatchParam), ("g", VarKind.Arguments)] ⟨0, []⟩
  have hcalls := h.1
  decide

/- -------------------------------------------------------------------
   Scope frames and createScope (C9).

   instrument.ts lines 119-123: createScope builds a new Scope whose
   parent is the current state.scope, runs the scope pre-pass body on
   it, and then assigns state.scope = scope.  No visitor ever restores
   state.scope afterwards (the only assignments to `this.scope` in the
   file are the constructor's `null` and createScope's).
   ------------------------------------------------------------------- -/

/-- The scope chain: `null` models the initial `this.scope = null`, a
frame carries its vars mapping, its lexical flag, and the parent
chain. -/
inductive ScopeChain where
  | null
  | frame (vars : List (String × VarKind)) (forLexical : Bool)
      (parent : ScopeChain)
deriving DecidableEq, Repr

/-- The scope-relevant part of the walker State. -/
structure WalkScopeState where
  scope : ScopeChain
deriving DecidableEq, Repr

/-- instrument.ts lines 119-123: `const scope = new Scope(this.scope,
forLexical); body(scope); this.scope = scope;`.  The pre-pass body
mutates only `scope.vars`; its computed result is passed as
`prepassVars`. -/
def createScope (st : WalkScopeState) (prepassVars : List (String × VarKind))
    (forLexical : Bool) : WalkScopeState :=
  { st with scope := ScopeChain.frame prepassVars forLexical st.scope }

/-- A region of the program as seen by the scope machinery: its
pre-pass result, its lexical flag, and the nested regions its walk
enters, in order. -/
inductive RegionTree where
  | region (vars : List (String × VarKind)) (forLexical : Bool)
      (children : List RegionTree)

mutual

/-- The effect of a region visitor on the scope state: createScope on
entry, then the children regions; the source contains no restore of
state.scope on exit. -/
def visitRegion : RegionTree → WalkScopeState → WalkScopeState
  | RegionTree.region vars lex children, st =>
    visitChildren children (createScope st vars lex)

/-- Visit a list of nested regions left to right. -/
def visitChildren : List RegionTree → WalkScopeState → WalkScopeState
  | [], st => st
  | r :: rs, st => visitChildren rs (visitRegion r st)

end

/-- Counterexample for C9: walking a single (childless) region from
the initial state leaves the state's current scope at the region's
frame, not at the frame from before entry. -/
theorem createScope_no_pop_counterexample :
    (visitRegion (RegionTree.region [] true []) ⟨ScopeChain.null⟩).scope ≠
      (WalkScopeState.mk ScopeChain.null).scope := by
  decide

/-- C9 amended: a frame is pushed when a region is entered (the new
frame's parent is the previous current scope), but it is never popped:
after a leaf region's walk exits, the state's current scope is the
region's own frame, whose parent link is the previous scope, and in
general the walk continues from the pushed frame. -/
theorem createScope_pushes_never_pops (st : WalkScopeState)
    (vars : List (String × VarKind)) (lex : Bool)
    (children : List RegionTree) :
    visitRegion (RegionTree.region vars lex children) st =
      visitChildren children
        (WalkScopeState.mk (ScopeChain.frame vars lex st.scope)) ∧
    (visitRegion (RegionTree.region vars lex []) st).scope =
      ScopeChain.frame vars lex st.scope := by
  exact ⟨rfl, rfl⟩

/- -------------------------------------------------------------------
   Runtime values (for the hooks of analysis.ts).

   A small model of the host values the update hook manipulates:
   numbers (integer-valued; the fractional and NaN corners of host
   arithmetic are collapsed into `nan`), bigints, strings, booleans,
   undefined and null.  Host unary minus (ToNumber followed by
   negation, with a bigint branch) is modelled by jsNeg; string-to-
   number parsing is abstracted to `nan`.
   ------------------------------------------------------------------- -/

inductive JSVal where
  | num (n : Int)
  | bigint (n : Int)
  | str (s : String)
  | boolV (b : Bool)
  | undef
  | nullV
  | nan
deriving DecidableEq, Repr

/-- Host unary minus `-x`: negates numbers and bigints, coerces
booleans and null to numbers first, and yields NaN on undefined and on
(non-numeric) strings. -/
def jsNeg : JSVal → JSVal
  | JSVal.num n => JSVal.num (-n)
  | JSVal.bigint n => JSVal.bigint (-n)
  | JSVal.boolV true => JSVal.num (-1)
  | JSVal.boolV false => JSVal.num 0
  | JSVal.nullV => JSVal.num 0
  | JSVal.str _ => JSVal.nan
  | JSVal.undef => JSVal.nan
  | JSVal.nan => JSVal.nan

/-- `typeof v == 'bigint'` (analysis.ts line 257). -/
def isBigInt : JSVal → Bool
  | JSVal.bigint _ => true
  | _ => false

/-- Host `+` restricted to the numeric values the update hook adds
(number plus number, bigint plus bigint; every other combination is
collapsed to NaN, and none occurs in Up). -/
def jsAdd : JSVal → JSVal → JSVal
  | JSVal.num a, JSVal.num b => JSVal.num (a + b)
  | JSVal.bigint a, JSVal.bigint b => JSVal.bigint (a + b)
  | _, _ => JSVal.nan

/-- Host `-` restricted in the same way. -/
def jsSub : JSVal → JSVal → JSVal
  | JSVal.num a, JSVal.num b => JSVal.num (a - b)
  | JSVal.bigint a, JSVal.bigint b => JSVal.bigint (a - b)
  | _, _ => JSVal.nan

/- -------------------------------------------------------------------
   The update hook Up (analysis.ts lines 253-266) -- C4.

   The analysis callbacks it fires and the single call to the writer
   closure are recorded as an event list, in call order.
   ------------------------------------------------------------------- -/

/-- The observable actions of the Up hook, in order. -/
inductive UpEvent where
  | unaryPre (id : Nat) (op : String) (pfx : Bool) (operand : JSVal)
  | binaryPre (id : Nat) (op : String) (left right : JSVal)
  | binaryPost (id : Nat) (op : String) (left right result : JSVal)
  | writeCall (value : JSVal)
  | unaryPost (id : Nat) (op : String) (pfx : Bool) (operand result : JSVal)
deriving DecidableEq, Repr

/-- analysis.ts lines 253-266, translated line by line: unaryPre; then
`oldValue = -(-argument)`; the synthesized binary operator is `+` for
`++` and `-` otherwise; the increment is `1n` when the coerced old
value is a bigint and `1` otherwise; binaryPre, the addition or
subtraction, binaryPost; one call to the writer with the new value;
the result is newValue for the pre form and oldValue for the post
form; unaryPost with that result. -/
def Up (id binaryId : Nat) (op : String) (pfx : Bool) (argument : JSVal) :
    List UpEvent × JSVal :=
  let oldValue := jsNeg (jsNeg argument)
  let binaryOp := if op == "++" then "+" else "-"
  let right := if isBigInt oldValue then JSVal.bigint 1 else JSVal.num 1
  let newValue := if op == "++" then jsAdd oldValue right else jsSub oldValue right
  let result := if pfx then newValue else oldValue
  ([UpEvent.unaryPre id op pfx argument,
    UpEvent.binaryPre binaryId binaryOp oldValue right,
    UpEvent.binaryPost binaryId binaryOp oldValue right newValue,
    UpEvent.writeCall newValue,
    UpEvent.unaryPost id op pfx argument result], result)

/-- Recognizer for writer calls among the Up events. -/
def isWriteCall : UpEvent → Bool
  | UpEvent.writeCall _ => true
  | _ => false

/-- C4: the Up hook coerces the old value by double unary minus (with
the bigint increment 1n chosen when the coerced old value is a
bigint), fires one synthesized binaryPre/binaryPost pair under the
separate binaryId with operator + for ++ and - for --, calls the
writer closure exactly once with the new value, and returns the new
value for the pre form and the old value for the post form. -/
theorem Up_spec (id binaryId : Nat) (pfx : Bool) (argument : JSVal) :
    (Up id binaryId "++" pfx argument =
      ([UpEvent.unaryPre id "++" pfx argument,
        UpEvent.binaryPre binaryId "+" (jsNeg (jsNeg argument))
          (if isBigInt (jsNeg (jsNeg argument)) then JSVal.bigint 1 else JSVal.num 1),
        UpEvent.binaryPost binaryId "+" (jsNeg (jsNeg argument))
          (if isBigInt (jsNeg (jsNeg argument)) then JSVal.bigint 1 else JSVal.num 1)
          (jsAdd (jsNeg (jsNeg argument))
            (if isBigInt (jsNeg (jsNeg argument)) then JSVal.bigint 1 else JSVal.num 1)),
        UpEvent.writeCall (jsAdd (jsNeg (jsNeg argument))
          (if isBigInt (jsNeg (jsNeg argument)) then JSVal.bigint 1 else JSVal.num 1)),
        UpEvent.unaryPost id "++" pfx argument
          (if pfx
            then jsAdd (jsNeg (jsNeg argument))
              (if isBigInt (jsNeg (jsNeg argument)) then JSVal.bigint 1 else JSVal.num 1)
            else jsNeg (jsNeg argument))],
       if pfx
        then jsAdd (jsNeg (jsNeg argument))
          (if isBigInt (jsNeg (jsNeg argument)) then JSVal.bigint 1 else JSVal.num 1)
        else jsNeg (jsNeg argument))) ∧
    (Up id binaryId "--" pfx argument =
      ([UpEvent.unaryPre id "--" pfx argument,
        UpEvent.binaryPre binaryId "-" (jsNeg (jsNeg argument))
          (if isBigInt (jsNeg (jsNeg argument)) then JSVal.bigint 1 else JSVal.num 1),
        UpEvent.binaryPost binaryId "-" (jsNeg (jsNeg argument))
          (if isBigInt (jsNeg (jsNeg argument)) then JSVal.bigint 1 else JSVal.num 1)
          (jsSub (jsNeg (jsNeg argument))
            (if isBigInt (jsNeg (jsNeg argument)) then JSVal.bigint 1 else JSVal.num 1)),
        UpEvent.writeCall (jsSub (jsNeg (jsNeg argument))
          (if isBigInt (jsNeg (jsNeg argument)) then JSVal.bigint 1 else JSVal.num 1)),
        UpEvent.unaryPost id "--" pfx argument
          (if pfx
            then jsSub (jsNeg (jsNeg argument))
              (if isBigInt (jsNeg (jsNeg argument)) then JSVal.bigint 1 else JSVal.num 1)
            else jsNeg (jsNeg argument))],
       if pfx
        then jsSub (jsNeg (jsNeg argument))
          (if isBigInt (jsNeg (jsNeg argument)) then JSVal.bigint 1 else JSVal.num 1)
        else jsNeg (jsNeg argument))) ∧
    ∀ op, ((Up id binaryId op pfx argument).1.filter isWriteCall).length = 1 := by
  refine ⟨rfl, by simp [Up], ?_⟩
  intro op
  simp [Up, isWriteCall]

/- -------------------------------------------------------------------
   Exception capture and re-throw (C5): the X, Sx and Fx hooks of
   analysis.ts, with the module-level slots as explicit state.
   ------------------------------------------------------------------- -/

/-- The module-level mutable runtime state of analysis.ts: the
uncaught-exception slot, the return-value stack and the switch
discriminant stack (JS array push/pop modelled with the list head as
the stack top). -/
structure RTState where
  uncaught : Option JSVal
  returnStack : List JSVal
  switchLeft : JSVal
  switchStack : List JSVal
deriving DecidableEq, Repr

/-- How a hook call finishes: normal return or a thrown value. -/
inductive Outcome where
  | normal
  | thrown (v : JSVal)
deriving DecidableEq, Repr

/-- analysis.ts lines 316-318: the X hook stores the exception in the
uncaught-exception slot. -/
def X (id : Nat) (s : RTState) (exception : JSVal) : RTState :=
  { s with uncaught := some exception }

/-- Result of a script-exit call: the argument passed to the analysis
scriptExit callback, the state afterwards, and the outcome. -/
structure SxResult where
  callbackId : Nat
  callbackExc : Option JSVal
  state : RTState
  outcome : Outcome
deriving DecidableEq, Repr

/-- analysis.ts lines 67-75: read the slot, invoke the scriptExit
callback with it, then -- only if an exception was captured -- clear
the slot and re-throw exactly that exception. -/
def Sx (id : Nat) (s : RTState) : SxResult :=
  let exc := s.uncaught
  match exc with
  | some e => ⟨id, exc, { s with uncaught := none }, Outcome.thrown e⟩
  | none => ⟨id, exc, s, Outcome.normal⟩

/-- Result of a function-exit call: the return value and exception
passed to the functionExit callback, the state afterwards, and the
outcome. -/
structure FxResult where
  callbackId : Nat
  callbackRet : JSVal
  callbackExc : Option JSVal
  state : RTState
  outcome : Outcome
deriving DecidableEq, Repr

/-- analysis.ts lines 141-151: read the slot, pop the return stack and
the switch stack, invoke functionExit with the popped return value and
the exception, then -- only if an exception was captured -- clear the
slot and re-throw exactly that exception. -/
def Fx (id : Nat) (s : RTState) : FxResult :=
  let exc := s.uncaught
  let ret := s.returnStack.headD JSVal.undef
  let s1 : RTState :=
    { s with
      returnStack := s.returnStack.tail,
      switchLeft := s.switchStack.headD JSVal.undef,
      switchStack := s.switchStack.tail }
  match exc with
  | some e => ⟨id, ret, exc, { s1 with uncaught := none }, Outcome.thrown e⟩
  | none => ⟨id, ret, exc, s1, Outcome.normal⟩

/-- C5: after the X hook stores an exception, the enclosing Sx or Fx
(running in the finally block) passes exactly that exception to the
scriptExit/functionExit callback and re-throws exactly that value,
clearing the slot, so target-language exception semantics are
preserved; when no exception was captured, Sx and Fx return normally
without throwing. -/
theorem exception_capture_rethrow (xid sid fid : Nat) (s : RTState) (e : JSVal) :
    ((Sx sid (X xid s e)).callbackExc = some e ∧
      (Sx sid (X xid s e)).outcome = Outcome.thrown e ∧
      (Sx sid (X xid s e)).state.uncaught = none) ∧
    ((Fx fid (X xid s e)).callbackExc = some e ∧
      (Fx fid (X xid s e)).outcome = Outcome.thrown e ∧
      (Fx fid (X xid s e)).state.uncaught = none) ∧
    (s.uncaught = none →
      (Sx sid s).outcome = Outcome.normal ∧ (Fx fid s).outcome = Outcome.normal) := by
  refine ⟨⟨rfl, rfl, rfl⟩, ⟨rfl, rfl, rfl⟩, ?_⟩
  intro h
  constructor
  · simp [Sx, h]
  · simp [Fx, h]

/-- Witness for C5 at a concrete state and exception value: the
captured string "boom" is re-thrown by both exit hooks, and from the
empty slot both exit normally. -/
theorem exception_capture_rethrow_witness :
    (Sx 9 (X 7 ⟨none, [], JSVal.undef, []⟩ (JSVal.str "boom"))).outcome =
      Outcome.thrown (JSVal.str "boom") ∧
    (Fx 8 (X 7 ⟨none, [], JSVal.undef, []⟩ (JSVal.str "boom"))).outcome =
      Outcome.thrown (JSVal.str "boom") ∧
    (Sx 9 ⟨none, [], JSVal.undef, []⟩).outcome = Outcome.normal ∧
    (Fx 8 ⟨none, [], JSVal.undef, []⟩).outcome = Outcome.normal := by
  have h := exception_capture_rethrow 7 9 8 ⟨none, [], JSVal.undef, []⟩ (JSVal.str "boom")
  have h2 := h.2.2 rfl
  exact ⟨h.1.2.1, h.2.1.2.1, h2.1, h2.2⟩

/- -------------------------------------------------------------------
   Binding patterns and collectIdentifiers (instrument.ts lines
   836-884) -- C6.

   The acorn Pattern nodes are modelled as a mutual inductive family:
   the properties of an ObjectPattern and the elements of an
   ArrayPattern are carried as spines so that mutual structural
   recursion mirrors the source loops.  A hole in an ArrayPattern is
   the `null` element.  The default expression of an AssignmentPattern
   is itself a pattern-shaped tree (an expression can contain
   identifiers), which lets the theorems say that it is never scanned.
   Every node kind outside the handled ones is `other kindName` and
   hits the fail-fast `todo` branch, modelled as an error value.
   ------------------------------------------------------------------- -/

mutual

inductive Pat where
  | ident (name : String)
  | objectPat (props : Props)
  | arrayPat (elems : Elems)
  | restElem (argument : Pat)
  | assignPat (left : Pat) (right : Pat)
  | other (kind : String)

inductive Props where
  | nil
  | prop (value : Pat) (rest : Props)
  | restProp (argument : Pat) (rest : Props)

inductive Elems where
  | nil
  | hole (rest : Elems)
  | elem (e : Pat) (rest : Elems)

end

mutual

/-- instrument.ts lines 836-884: collect the bound identifier names of
a binding pattern in push order; an unhandled node kind aborts with a
fail-fast error naming the kind. -/
def collectIdentifiers : Pat → Except String (List String)
  | Pat.ident name => Except.ok [name]
  | Pat.objectPat props => collectProps props
  | Pat.arrayPat elems => collectElems elems
  | Pat.restElem argument => collectIdentifiers argument
  | Pat.assignPat left _right => collectIdentifiers left
  | Pat.other kind => Except.error ("collectIdentifiers: " ++ kind)

/-- The ObjectPattern loop: Property recurses into the value,
RestElement into the argument. -/
def collectProps : Props → Except String (List String)
  | Props.nil => Except.ok []
  | Props.prop value rest => do
    let xs ← collectIdentifiers value
    let ys ← collectProps rest
    Except.ok (xs ++ ys)
  | Props.restProp argument rest => do
    let xs ← collectIdentifiers argument
    let ys ← collectProps rest
    Except.ok (xs ++ ys)

/-- The ArrayPattern loop: holes contribute nothing; an Identifier
element pushes its name; a RestElement recurses into its argument; any
other element recurses as a pattern. -/
def collectElems : Elems → Except String (List String)
  | Elems.nil => Except.ok []
  | Elems.hole rest => collectElems rest
  | Elems.elem e rest =>
    match e with
    | Pat.ident name => do
      let ys ← collectElems rest
      Except.ok (name :: ys)
    | Pat.restElem argument => do
      let xs ← collectIdentifiers argument
      let ys ← collectElems rest
      Except.ok (xs ++ ys)
    | e' => do
      let xs ← collectIdentifiers e'
      let ys ← collectElems rest
      Except.ok (xs ++ ys)

end

mutual

/-- Spec-side definition (section 4.2 of the spec, written from its
words): the bound names of a supported binding pattern, in source
order; the default expression of a default pattern contributes
nothing. -/
def boundNames : Pat → List String
  | Pat.ident name => [name]
  | Pat.objectPat props => boundNamesProps props
  | Pat.arrayPat elems => boundNamesElems elems
  | Pat.restElem argument => boundNames argument
  | Pat.assignPat left _right => boundNames left
  | Pat.other _ => []

def boundNamesProps : Props → List String
  | Props.nil => []
  | Props.prop value rest => boundNames value ++ boundNamesProps rest
  | Props.restProp argument rest => boundNames argument ++ boundNamesProps rest

def boundNamesElems : Elems → List String
  | Elems.nil => []
  | Elems.hole rest => boundNamesElems rest
  | Elems.elem e rest => boundNames e ++ boundNamesElems rest

end

mutual

/-- Whether a pattern stays inside the supported forms on every path
that collectIdentifiers actually scans (default expressions are not
scanned, so they are not constrained). -/
def supportedPat : Pat → Bool
  | Pat.ident _ => true
  | Pat.objectPat props => supportedProps props
  | Pat.arrayPat elems => supportedElems elems
  | Pat.restElem argument => supportedPat argument
  | Pat.assignPat left _right => supportedPat left
  | Pat.other _ => false

def supportedProps : Props → Bool
  | Props.nil => true
  | Props.prop value rest => supportedPat value && supportedProps rest
  | Props.restProp argument rest => supportedPat argument && supportedProps rest

def supportedElems : Elems → Bool
  | Elems.nil => true
  | Elems.hole rest => supportedElems rest
  | Elems.elem e rest => supportedPat e && supportedElems rest

end

mutual

theorem collect_ok_of_supported :
    ∀ p : Pat, supportedPat p = true →
      collectIdentifiers p = Except.ok (boundNames p)
  | Pat.ident _, _ => rfl
  | Pat.objectPat props, h => by
    simpa [collectIdentifiers, boundNames] using
      collectProps_ok_of_supported props (by simpa [supportedPat] using h)
  | Pat.arrayPat elems, h => by
    simpa [collectIdentifiers, boundNames] using
      collectElems_ok_of_supported elems (by simpa [supportedPat] using h)
  | Pat.restElem a, h => by
    simpa [collectIdentifiers, boundNames] using
      collect_ok_of_supported a (by simpa [supportedPat] using h)
  | Pat.assignPat l r, h => by
    simpa [collectIdentifiers, boundNames] using
      collect_ok_of_supported l (by simpa [supportedPat] using h)

theorem collectProps_ok_of_supported :
    ∀ ps : Props, supportedProps ps = true →
      collectProps ps = Except.ok (boundNamesProps ps)
  | Props.nil, _ => rfl
  | Props.prop v rest, h => by
    have hv : supportedPat v = true := by
      simp [supportedProps] at h; exact h.1
    have hr : supportedProps rest = true := by
      simp [supportedProps] at h; exact h.2
    simp [collectProps, boundNamesProps, bind, Except.bind,
      collect_ok_of_supported v hv, collectProps_ok_of_supported rest hr]
  | Props.restProp a rest, h => by
    have ha : supportedPat a = true := by
      simp [supportedProps] at h; exact h.1
    have hr : supportedProps rest = true := by
      simp [supportedProps] at h; exact h.2
    simp [collectProps, boundNamesProps, bind, Except.bind,
      collect_ok_of_supported a ha, collectProps_ok_of_supported rest hr]

theorem collectElems_ok_of_supported :
    ∀ es : Elems, supportedElems es = true →
      collectElems es = Except.ok (boundNamesElems es)
  | Elems.nil, _ => rfl
  | Elems.hole rest, h => by
    simpa [collectElems, boundNamesElems] using
      collectElems_ok_of_supported rest (by simpa [supportedElems] using h)
  | Elems.elem e rest, h => by
    have he : supportedPat e = true := by
      simp [supportedElems] at h; exact h.1
    have hr : supportedElems rest = true := by
      simp [supportedElems] at h; exact h.2
    have hrest := collectElems_ok_of_supported rest hr
    cases e with
    | ident name =>
      simp [collectElems, boundNamesElems, boundNames, bind, Except.bind, hrest]
    | restElem a =>
      have ha : supportedPat a = true := by simpa [supportedPat] using he
      simp [collectElems, boundNamesElems, boundNames, bind, Except.bind,
        collect_ok_of_supported a ha, hrest]
    | objectPat props =>
      simp [collectElems, boundNamesElems, bind, Except.bind,
        collect_ok_of_supported (Pat.objectPat props) he, hrest]
    | arrayPat elems =>
      simp [collectElems, boundNamesElems, bind, Except.bind,
        collect_ok_of_supported (Pat.arrayPat elems) he, hrest]
    | assignPat l r =>
      simp [collectElems, boundNamesElems, bind, Except.bind,
        collect_ok_of_supported (Pat.assignPat l r) he, hrest]
    | other k =>
      simp [supportedPat] at he

end

/-- The element branch of collectElems is the same bind-append over
collectIdentifiers for every element shape. -/
theorem collectElems_elem (e : Pat) (rest : Elems) :
    collectElems (Elems.elem e rest) =
      (do
        let xs ← collectIdentifiers e
        let ys ← collectElems rest
        Except.ok (xs ++ ys)) := by
  cases e with
  | ident name =>
    cases h : collectElems rest <;>
      simp [collectElems, collectIdentifiers, bind, Except.bind, h]
  | restElem a => rfl
  | objectPat props => rfl
  | arrayPat es => rfl
  | assignPat l r => rfl
  | other k => rfl

mutual

theorem collect_error_of_unsupported :
    ∀ p : Pat, supportedPat p = false →
      ∃ m, collectIdentifiers p = Except.error m
  | Pat.ident _, h => by simp [supportedPat] at h
  | Pat.objectPat props, h => by
    simpa [collectIdentifiers] using
      collectProps_error_of_unsupported props (by simpa [supportedPat] using h)
  | Pat.arrayPat elems, h => by
    simpa [collectIdentifiers] using
      collectElems_error_of_unsupported elems (by simpa [supportedPat] using h)
  | Pat.restElem a, h => by
    simpa [collectIdentifiers] using
      collect_error_of_unsupported a (by simpa [supportedPat] using h)
  | Pat.assignPat l r, h => by
    simpa [collectIdentifiers] using
      collect_error_of_unsupported l (by simpa [supportedPat] using h)
  | Pat.other k, _ => ⟨"collectIdentifiers: " ++ k, rfl⟩

theorem collectProps_error_of_unsupported :
    ∀ ps : Props, supportedProps ps = false →
      ∃ m, collectProps ps = Except.error m
  | Props.nil, h => by simp [supportedProps] at h
  | Props.prop v rest, h => by
    cases hvok : supportedPat v with
    | false =>
      obtain ⟨m, hm⟩ := collect_error_of_unsupported v hvok
      exact ⟨m, by simp [collectProps, bind, Except.bind, hm]⟩
    | true =>
      have hr : supportedProps rest = false := by
        simpa [supportedProps, hvok] using h
      obtain ⟨m, hm⟩ := collectProps_error_of_unsupported rest hr
      exact ⟨m, by
        simp [collectProps, bind, Except.bind,
          collect_ok_of_supported v hvok, hm]⟩
  | Props.restProp a rest, h => by
    cases haok : supportedPat a with
    | false =>
      obtain ⟨m, hm⟩ := collect_error_of_unsupported a haok
      exact ⟨m, by simp [collectProps, bind, Except.bind, hm]⟩
    | true =>
      have hr : supportedProps rest = false := by
        simpa [supportedProps, haok] using h
      obtain ⟨m, hm⟩ := collectProps_error_of_unsupported rest hr
      exact ⟨m, by
        simp [collectProps, bind, Except.bind,
          collect_ok_of_supported a haok, hm]⟩

theorem collectElems_error_of_unsupported :
    ∀ es : Elems, supportedElems es = false →
      ∃ m, collectElems es = Except.error m
  | Elems.nil, h => by simp [supportedElems] at h
  | Elems.hole rest, h => by
    simpa [collectElems] using
      collectElems_error_of_unsupported rest (by simpa [supportedElems] using h)
  | Elems.elem e rest, h => by
    rw [collectElems_elem]
    cases heok : supportedPat e with
    | false =>
      obtain ⟨m, hm⟩ := collect_error_of_unsupported e heok
      exact ⟨m, by simp [bind, Except.bind, hm]⟩
    | true =>
      have hr : supportedElems rest = false := by
        simpa [supportedElems, heok] using h
      obtain ⟨m, hm⟩ := collectElems_error_of_unsupported rest hr
      exact ⟨m, by
        simp [bind, Except.bind, collect_ok_of_supported e heok, hm]⟩

end

/-- C6: collectIdentifiers returns exactly the bound names of a
supported binding pattern in source order (plain identifier, object
pattern recursing into property values and rest arguments, array
pattern skipping holes and recursing into elements and rest arguments,
default pattern recursing only into its left side and never scanning
the default expression), and aborts with a fail-fast error on any
other node kind. -/
theorem collectIdentifiers_spec (p : Pat) :
    (supportedPat p = true → collectIdentifiers p = Except.ok (boundNames p)) ∧
    (supportedPat p = false → ∃ m, collectIdentifiers p = Except.error m) ∧
    (∀ l r r', collectIdentifiers (Pat.assignPat l r) =
      collectIdentifiers (Pat.assignPat l r')) ∧
    (∀ k, collectIdentifiers (Pat.other k) =
      Except.error ("collectIdentifiers: " ++ k)) := by
  refine ⟨collect_ok_of_supported p, collect_error_of_unsupported p,
    fun l r r' => rfl, fun k => rfl⟩

/-- Witness for C6 at a concrete pattern
`{a, ...b} = [ , c, ...[d, e = f] ]`-shaped: object and array forms,
a hole, rests, and a default whose right side is an unsupported node
that is nevertheless never scanned. -/
theorem collectIdentifiers_spec_witness :
    collectIdentifiers
      (Pat.arrayPat (Elems.hole (Elems.elem
        (Pat.objectPat (Props.prop (Pat.ident "a")
          (Props.restProp (Pat.ident "b") Props.nil)))
        (Elems.elem (Pat.restElem (Pat.arrayPat (Elems.elem (Pat.ident "c")
          (Elems.elem (Pat.assignPat (Pat.ident "d")
            (Pat.other "CallExpression")) Elems.nil))))
          Elems.nil)))) = Except.ok ["a", "b", "c", "d"] := by
  have h := (collectIdentifiers_spec
    (Pat.arrayPat (Elems.hole (Elems.elem
      (Pat.objectPat (Props.prop (Pat.ident "a")
        (Props.restProp (Pat.ident "b") Props.nil)))
      (Elems.elem (Pat.restElem (Pat.arrayPat (Elems.elem (Pat.ident "c")
        (Elems.elem (Pat.assignPat (Pat.ident "d")
          (Pat.other "CallExpression")) Elems.nil))))
        Elems.nil))))).1 (by rfl)
  simpa [boundNames, boundNamesElems, boundNamesProps] using h

/- -------------------------------------------------------------------
   The unary and binary operator hooks U and B (analysis.ts lines
   197-250) -- C10.

   Each table entry in the source is a host-language operation
   ((a, b) => a + b and so on); evaluation of those primitives is
   deferred to the host interpreter, so they are carried here as an
   abstract interpretation record over an arbitrary value type.  The
   tables themselves are object literals, modelled as association
   lists in the source's insertion order.
   ------------------------------------------------------------------- -/

/-- The host primitive operations the runtime tables close over, one
field per table entry of analysis.ts. -/
structure HostOps (V : Type) where
  looseEq : V → V → V
  looseNe : V → V → V
  strictEq : V → V → V
  strictNe : V → V → V
  lt : V → V → V
  le : V → V → V
  gt : V → V → V
  ge : V → V → V
  shl : V → V → V
  shr : V → V → V
  ushr : V → V → V
  add : V → V → V
  sub : V → V → V
  mul : V → V → V
  div : V → V → V
  mod : V → V → V
  bitOr : V → V → V
  bitXor : V → V → V
  bitAnd : V → V → V
  inOp : V → V → V
  instanceofOp : V → V → V
  pow : V → V → V
  negOp : V → V
  plusOp : V → V
  logicalNot : V → V
  bitNot : V → V
  typeofOp : V → V
  voidOp : V → V
  -- Calling a member inherited from Object.prototype through the
  -- table with two arguments (no receiver); the host call may return
  -- a value or throw.
  protoCall2 : String → V → V → Except String V
  -- The same with one argument, for the unary table.
  protoCall1 : String → V → Except String V

/-- analysis.ts lines 227-250: the binary operator table, in source
order. -/
def BINARY_OPS {V : Type} (h : HostOps V) : List (String × (V → V → V)) :=
  [("==", h.looseEq), ("!=", h.looseNe), ("===", h.strictEq),
   ("!==", h.strictNe), ("<", h.lt), ("<=", h.le), (">", h.gt),
   (">=", h.ge), ("<<", h.shl), (">>", h.shr), (">>>", h.ushr),
   ("+", h.add), ("-", h.sub), ("*", h.mul), ("/", h.div), ("%", h.mod),
   ("|", h.bitOr), ("^", h.bitXor), ("&", h.bitAnd), ("in", h.inOp),
   ("instanceof", h.instanceofOp), ("**", h.pow)]

/-- analysis.ts lines 207-214: the unary operator table, in source
order. -/
def UNARY_OPS {V : Type} (h : HostOps V) : List (String × (V → V)) :=
  [("-", h.negOp), ("+", h.plusOp), ("!", h.logicalNot), ("~", h.bitNot),
   ("typeof", h.typeofOp), ("void", h.voidOp)]

/-- The keys of the binary table. -/
def BINARY_OP_NAMES : List String :=
  ["==", "!=", "===", "!==", "<", "<=", ">", ">=", "<<", ">>", ">>>",
   "+", "-", "*", "/", "%", "|", "^", "&", "in", "instanceof", "**"]

/-- The keys of the unary table. -/
def UNARY_OP_NAMES : List String :=
  ["-", "+", "!", "~", "typeof", "void"]

/-- The analysis callbacks fired by U and B, in call order. -/
inductive OpEvent (V : Type) where
  | unaryPre (id : Nat) (op : String) (pfx : Bool) (operand : V)
  | unaryPost (id : Nat) (op : String) (pfx : Bool) (operand result : V)
  | binaryPre (id : Nat) (op : String) (left right : V)
  | binaryPost (id : Nat) (op : String) (left right result : V)
deriving DecidableEq, Repr

/-- The property names every plain object inherits from
Object.prototype in the host: the JS accesses BINARY_OPS[op] and
UNARY_OPS[op] in analysis.ts find these names on the prototype chain
even though they are not own entries of the table literals, and every
one of them is truthy (a built-in function, or Object.prototype itself
for __proto__), so the `if (!f)` guard does not fire for them. -/
def OBJECT_PROTO_MEMBERS : List String :=
  ["constructor", "__defineGetter__", "__defineSetter__",
   "hasOwnProperty", "__lookupGetter__", "__lookupSetter__",
   "isPrototypeOf", "propertyIsEnumerable", "toString", "valueOf",
   "__proto__", "toLocaleString"]

/-- What the JS property access TABLE[op] yields on a table literal:
an own entry, a truthy member inherited from Object.prototype, or
undefined. -/
inductive TableLookup (α : Type) where
  | ownEntry (f : α)
  | inheritedMember (name : String)
  | undef

/-- The host property access on a table literal: own entries first,
then the Object.prototype chain, else undefined. -/
def tableGet {α : Type} (table : List (String × α)) (op : String) :
    TableLookup α :=
  match table.lookup op with
  | some f => TableLookup.ownEntry f
  | none =>
    if OBJECT_PROTO_MEMBERS.contains op
      then TableLookup.inheritedMember op
      else TableLookup.undef

/-- analysis.ts lines 217-226: fire binaryPre, access the operator on
the table object, abort with the unknown-operator error only when the
access yields a falsy value (an inherited Object.prototype member is
truthy and is called instead), otherwise compute the result -- the
entry applied to the operands, or the host call of the inherited
member, which may itself throw -- and fire binaryPost with it before
returning it. -/
def B {V : Type} (h : HostOps V) (id : Nat) (op : String) (left right : V) :
    List (OpEvent V) × Except String V :=
  match tableGet (BINARY_OPS h) op with
  | TableLookup.undef =>
    ([OpEvent.binaryPre id op left right],
     Except.error ("unknown binary operator " ++ op))
  | TableLookup.ownEntry f =>
    let result := f left right
    ([OpEvent.binaryPre id op left right,
      OpEvent.binaryPost id op left right result],
     Except.ok result)
  | TableLookup.inheritedMember name =>
    match h.protoCall2 name left right with
    | Except.ok result =>
      ([OpEvent.binaryPre id op left right,
        OpEvent.binaryPost id op left right result],
       Except.ok result)
    | Except.error m =>
      ([OpEvent.binaryPre id op left right], Except.error m)

/-- analysis.ts lines 197-206: the same shape for the unary table,
with unaryPre always fired with the prefix flag true. -/
def U {V : Type} (h : HostOps V) (id : Nat) (op : String) (operand : V) :
    List (OpEvent V) × Except String V :=
  match tableGet (UNARY_OPS h) op with
  | TableLookup.undef =>
    ([OpEvent.unaryPre id op true operand],
     Except.error ("unknown unary operator " ++ op))
  | TableLookup.ownEntry f =>
    let result := f operand
    ([OpEvent.unaryPre id op true operand,
      OpEvent.unaryPost id op true operand result],
     Except.ok result)
  | TableLookup.inheritedMember name =>
    match h.protoCall1 name operand with
    | Except.ok result =>
      ([OpEvent.unaryPre id op true operand,
        OpEvent.unaryPost id op true operand result],
       Except.ok result)
    | Except.error m =>
      ([OpEvent.unaryPre id op true operand], Except.error m)

theorem lookup_eq_none_of_not_mem_keys {α : Type} [BEq α] [LawfulBEq α]
    {β : Type} (l : List (α × β)) (a : α) (h : a ∉ l.map Prod.fst) :
    l.lookup a = none := by
  induction l with
  | nil => rfl
  | cons p l ih =>
    have h1 : ¬a = p.1 := by
      intro e; exact h (by simp [e])
    have h2 : a ∉ l.map Prod.fst := by
      intro e; exact h (by simp [e])
    have hne : (a == p.1) = false := by simpa using h1
    simp [List.lookup, hne, ih h2]

/-- Disjointness of the inherited member names and the table keys. -/
theorem proto_members_not_op_names :
    ∀ op ∈ OBJECT_PROTO_MEMBERS,
      op ∉ BINARY_OP_NAMES ∧ op ∉ UNARY_OP_NAMES := by
  decide

/-- C10 amended: for every operator in the runtime's binary table the
B hook returns the host operation applied to its two operands
(bracketed by the binaryPre/binaryPost pair), for every operator in
the unary table the U hook returns the host unary operation applied to
its operand, and for any operator that is neither a table key nor the
name of a member inherited from Object.prototype, B and U raise the
unknown-operator error before computing or reporting any result; for
an operator naming an inherited Object.prototype member, however, the
property access finds the truthy inherited member, the error check
does not fire, and the hook calls that member instead: when the host
call returns, its result is reported through the post event and
returned, and when it throws, that host exception (not the
unknown-operator error) propagates with no post event. -/
theorem op_table_spec {V : Type} (h : HostOps V) (id : Nat) (l r v : V) :
    ((B h id "==" l r).2 = Except.ok (h.looseEq l r) ∧
     (B h id "!=" l r).2 = Except.ok (h.looseNe l r) ∧
     (B h id "===" l r).2 = Except.ok (h.strictEq l r) ∧
     (B h id "!==" l r).2 = Except.ok (h.strictNe l r) ∧
     (B h id "<" l r).2 = Except.ok (h.lt l r) ∧
     (B h id "<=" l r).2 = Except.ok (h.le l r) ∧
     (B h id ">" l r).2 = Except.ok (h.gt l r) ∧
     (B h id ">=" l r).2 = Except.ok (h.ge l r) ∧
     (B h id "<<" l r).2 = Except.ok (h.shl l r) ∧
     (B h id ">>" l r).2 = Except.ok (h.shr l r) ∧
     (B h id ">>>" l r).2 = Except.ok (h.ushr l r) ∧
     (B h id "+" l r).2 = Except.ok (h.add l r) ∧
     (B h id "-" l r).2 = Except.ok (h.sub l r) ∧
     (B h id "*" l r).2 = Except.ok (h.mul l r) ∧
     (B h id "/" l r).2 = Except.ok (h.div l r) ∧
     (B h id "%" l r).2 = Except.ok (h.mod l r) ∧
     (B h id "|" l r).2 = Except.ok (h.bitOr l r) ∧
     (B h id "^" l r).2 = Except.ok (h.bitXor l r) ∧
     (B h id "&" l r).2 = Except.ok (h.bitAnd l r) ∧
     (B h id "in" l r).2 = Except.ok (h.inOp l r) ∧
     (B h id "instanceof" l r).2 = Except.ok (h.instanceofOp l r) ∧
     (B h id "**" l r).2 = Except.ok (h.pow l r)) ∧
    ((U h id "-" v).2 = Except.ok (h.negOp v) ∧
     (U h id "+" v).2 = Except.ok (h.plusOp v) ∧
     (U h id "!" v).2 = Except.ok (h.logicalNot v) ∧
     (U h id "~" v).2 = Except.ok (h.bitNot v) ∧
     (U h id "typeof" v).2 = Except.ok (h.typeofOp v) ∧
     (U h id "void" v).2 = Except.ok (h.voidOp v)) ∧
    (∀ op, op ∉ BINARY_OP_NAMES → op ∉ OBJECT_PROTO_MEMBERS →
      B h id op l r = ([OpEvent.binaryPre id op l r],
        Except.error ("unknown binary operator " ++ op))) ∧
    (∀ op, op ∉ UNARY_OP_NAMES → op ∉ OBJECT_PROTO_MEMBERS →
      U h id op v = ([OpEvent.unaryPre id op true v],
        Except.error ("unknown unary operator " ++ op))) ∧
    (∀ op ∈ OBJECT_PROTO_MEMBERS,
      (∀ res, h.protoCall2 op l r = Except.ok res →
        B h id op l r = ([OpEvent.binaryPre id op l r,
          OpEvent.binaryPost id op l r res], Except.ok res)) ∧
      (∀ m, h.protoCall2 op l r = Except.error m →
        B h id op l r = ([OpEvent.binaryPre id op l r], Except.error m)) ∧
      (∀ res, h.protoCall1 op v = Except.ok res →
        U h id op v = ([OpEvent.unaryPre id op true v,
          OpEvent.unaryPost id op true v res], Except.ok res)) ∧
      (∀ m, h.protoCall1 op v = Except.error m →
        U h id op v = ([OpEvent.unaryPre id op true v], Except.error m))) := by
  refine ⟨⟨rfl, rfl, rfl, rfl, rfl, rfl, rfl, rfl, rfl, rfl, rfl, rfl,
    rfl, rfl, rfl, rfl, rfl, rfl, rfl, rfl, rfl, rfl⟩,
    ⟨rfl, rfl, rfl, rfl, rfl, rfl⟩, ?_, ?_, ?_⟩
  · intro op hop hproto
    have hkeys : (BINARY_OPS h).map Prod.fst = BINARY_OP_NAMES := rfl
    have hnone : (BINARY_OPS h).lookup op = none :=
      lookup_eq_none_of_not_mem_keys (BINARY_OPS h) op (hkeys ▸ hop)
    have hc : OBJECT_PROTO_MEMBERS.contains op = false := by simpa using hproto
    simp [B, tableGet, hnone, hc, hproto]
  · intro op hop hproto
    have hkeys : (UNARY_OPS h).map Prod.fst = UNARY_OP_NAMES := rfl
    have hnone : (UNARY_OPS h).lookup op = none :=
      lookup_eq_none_of_not_mem_keys (UNARY_OPS h) op (hkeys ▸ hop)
    have hc : OBJECT_PROTO_MEMBERS.contains op = false := by simpa using hproto
    simp [U, tableGet, hnone, hc, hproto]
  · intro op hop
    obtain ⟨hopB, hopU⟩ := proto_members_not_op_names op hop
    have hkeysB : (BINARY_OPS h).map Prod.fst = BINARY_OP_NAMES := rfl
    have hnoneB : (BINARY_OPS h).lookup op = none :=
      lookup_eq_none_of_not_mem_keys (BINARY_OPS h) op (hkeysB ▸ hopB)
    have hkeysU : (UNARY_OPS h).map Prod.fst = UNARY_OP_NAMES := rfl
    have hnoneU : (UNARY_OPS h).lookup op = none :=
      lookup_eq_none_of_not_mem_keys (UNARY_OPS h) op (hkeysU ▸ hopU)
    have hc : OBJECT_PROTO_MEMBERS.contains op = true := by simpa using hop
    refine ⟨?_, ?_, ?_, ?_⟩
    · intro res hres
      simp [B, tableGet, hnoneB, hc, hop, hres]
    · intro m hm
      simp [B, tableGet, hnoneB, hc, hop, hm]
    · intro res hres
      simp [U, tableGet, hnoneU, hc, hop, hres]
    · intro m hm
      simp [U, tableGet, hnoneU, hc, hop, hm]

/-- A trivial host-operation record over Unit, used only to exercise
the dispatch behaviour (the host primitives are irrelevant to it).
Its inherited-member calls model the two members the counterexample
and witness use: Object.prototype.toString called with an undefined
receiver returns the string "[object Undefined]" without throwing
(collapsed to the Unit value), while Object.prototype.valueOf with an
undefined receiver throws a TypeError. -/
def unitHostOps : HostOps Unit where
  looseEq := fun _ _ => ()
  looseNe := fun _ _ => ()
  strictEq := fun _ _ => ()
  strictNe := fun _ _ => ()
  lt := fun _ _ => ()
  le := fun _ _ => ()
  gt := fun _ _ => ()
  ge := fun _ _ => ()
  shl := fun _ _ => ()
  shr := fun _ _ => ()
  ushr := fun _ _ => ()
  add := fun _ _ => ()
  sub := fun _ _ => ()
  mul := fun _ _ => ()
  div := fun _ _ => ()
  mod := fun _ _ => ()
  bitOr := fun _ _ => ()
  bitXor := fun _ _ => ()
  bitAnd := fun _ _ => ()
  inOp := fun _ _ => ()
  instanceofOp := fun _ _ => ()
  pow := fun _ _ => ()
  negOp := fun _ => ()
  plusOp := fun _ => ()
  logicalNot := fun _ => ()
  bitNot := fun _ => ()
  typeofOp := fun _ => ()
  voidOp := fun _ => ()
  protoCall2 := fun name _ _ =>
    if name == "toString" then Except.ok () else Except.error "TypeError"
  protoCall1 := fun name _ =>
    if name == "toString" then Except.ok () else Except.error "TypeError"

/-- Counterexample for C10: toString is outside both operator tables,
yet neither hook raises the unknown-operator error for it -- the
property access finds the inherited (truthy) Object.prototype.toString,
B and U call it, fire the post event with its result and return it,
contradicting the claim that any operator outside the tables raises an
error before computing or reporting any result. -/
theorem op_table_spec_counterexample :
    "toString" ∉ BINARY_OP_NAMES ∧
    "toString" ∉ UNARY_OP_NAMES ∧
    B unitHostOps 3 "toString" () () =
      ([OpEvent.binaryPre 3 "toString" () (),
        OpEvent.binaryPost 3 "toString" () () ()], Except.ok ()) ∧
    U unitHostOps 3 "toString" () =
      ([OpEvent.unaryPre 3 "toString" true (),
        OpEvent.unaryPost 3 "toString" true () ()], Except.ok ()) := by
  refine ⟨by decide, by decide, rfl, rfl⟩

/-- Witness for C10 over the trivial value type Unit: the addition
entry dispatches, the non-table non-inherited operators ?? and delete
abort with the unknown-operator error, the inherited toString is
called and reports a result, and the inherited valueOf propagates the
host TypeError. -/
theorem op_table_spec_witness :
    (B unitHostOps 3 "+" () ()).2 = Except.ok (unitHostOps.add () ()) ∧
    (B unitHostOps 3 "??" () ()).2 =
      Except.error "unknown binary operator ??" ∧
    (U unitHostOps 3 "delete" ()).2 =
      Except.error "unknown unary operator delete" ∧
    (B unitHostOps 3 "toString" () ()).2 = Except.ok () ∧
    (U unitHostOps 3 "valueOf" ()).2 = Except.error "TypeError" := by
  obtain ⟨hB, hU, herrB, herrU, hproto⟩ := op_table_spec unitHostOps 3 () () ()
  refine ⟨hB.2.2.2.2.2.2.2.2.2.2.2.1, ?_, ?_, ?_, ?_⟩
  · rw [herrB "??" (by decide) (by decide)]
    rfl
  · rw [herrU "delete" (by decide) (by decide)]
    rfl
  · rw [(hproto "toString" (by decide)).1 () rfl]
  · rw [(hproto "valueOf" (by decide)).2.2.2 "TypeError" rfl]

end DynaJS
